import Mathlib

/-!
Verification of the storage facade and its sub-stores.

The delegation layer (`CompositeStorage` / `LegacyRunStorage` /
`LegacyEventLogStorage` / `LegacyScheduleStorage`) is embedded from
`dagster/_core/storage/legacy_storage.py`.  The concrete role stores
(run store, event-log store, schedule store, polling watcher) are not
part of the provided sources, so they are modelled from the spec
(sections 3, 4.1, 4.2, 4.3, 4.5) as in-memory stores; each such
definition is marked `Modelled from the spec:` in its doc comment.
-/

namespace Dagster

/-- Run lifecycle status enum (spec section 3, entity Run). -/
inductive RunStatus where
  | queued
  | starting
  | started
  | success
  | failure
  | canceled
deriving DecidableEq, Repr

/-- A pipeline run: unique immutable id plus derived status. -/
structure DagsterRun where
  runId : String
  status : RunStatus
deriving DecidableEq, Repr

/-- A status-changing execution event, as consumed by `handle_run_event`. -/
structure DagsterEvent where
  newStatus : RunStatus
deriving DecidableEq, Repr

/-- Error taxonomy of spec section 7 (the members the claims mention). -/
inductive StorageError where
  | AlreadyExists
  | NotFound
  | BackendUnavailable
deriving DecidableEq, Repr

/-- Modelled from the spec: section 4.1 RunStore state — the ordered list of
runs that have been added (creation order = insertion order). -/
structure RunStorage where
  runs : List DagsterRun
deriving DecidableEq, Repr

/-- Modelled from the spec: `has_run(run_id)` — whether a run with the id is present. -/
def RunStorage.has_run (rs : RunStorage) (run_id : String) : Bool :=
  rs.runs.any (fun r => decide (r.runId = run_id))

/-- Modelled from the spec: `add_run(run) -> run`, fails with the duplicate-id
error (`DuplicateRunId` in section 4.1, `AlreadyExists` in the section 7
taxonomy) when the id already exists; the state is unchanged on failure. -/
def RunStorage.add_run (rs : RunStorage) (r : DagsterRun) :
    Except StorageError DagsterRun × RunStorage :=
  if rs.has_run r.runId then (Except.error StorageError.AlreadyExists, rs)
  else (Except.ok r, { rs with runs := rs.runs ++ [r] })

/-- Modelled from the spec: `handle_run_event(run_id, event)` updates the derived
run status from a status-changing event; a no-op when `run_id` is unknown. -/
def RunStorage.handle_run_event (rs : RunStorage) (run_id : String) (e : DagsterEvent) :
    RunStorage :=
  { rs with
    runs := rs.runs.map (fun r =>
      if r.runId = run_id then { r with status := e.newStatus } else r) }

/-- Run query filter (spec section 4.1; only the status-set component is modelled). -/
structure RunsFilter where
  statuses : Option (List RunStatus)
deriving DecidableEq, Repr

/-- Modelled from the spec: `get_runs(filter, cursor, limit)` — runs matching the
filter, newest-first by creation time, paginated by an exclusive run-id cursor. -/
def RunStorage.get_runs (rs : RunStorage) (filters : Option RunsFilter)
    (cursor : Option String) (limit : Option Nat) : List DagsterRun :=
  let newestFirst := rs.runs.reverse
  let matched := newestFirst.filter (fun r =>
    match filters with
    | none => true
    | some f =>
      match f.statuses with
      | none => true
      | some ss => ss.contains r.status)
  let afterCursor :=
    match cursor with
    | none => matched
    | some cid => (matched.dropWhile (fun r => decide (r.runId ≠ cid))).drop 1
  match limit with
  | none => afterCursor
  | some n => afterCursor.take n

/-- A recorded execution event before the store assigns its cursor. -/
structure EventLogEntry where
  runId : String
  eventType : String
deriving DecidableEq, Repr

/-- A stored event together with its store-assigned per-run sequence number. -/
structure EventLogRecord where
  seq : Nat
  entry : EventLogEntry
deriving DecidableEq, Repr

/-- Hierarchical asset key (spec section 3, entity AssetRecord). -/
abbrev AssetKey := List String

/-- A registered live subscriber of the event log (spec sections 4.2 and 4.5):
run id, deregistration handler token, and current cursor. -/
structure Watcher where
  runId : String
  handler : Nat
  cursor : Nat
deriving DecidableEq, Repr

/-- Modelled from the spec: section 4.2 EventLogStore state — the append-only
event list (store-assigned per-run sequence numbers), the asset-record index,
the partition index, and the registered live watchers. -/
structure EventLogStorage where
  events : List EventLogRecord
  assetRecords : List (AssetKey × (Nat × EventLogEntry))
  partitions : List (String × List String)
  watchers : List Watcher
deriving DecidableEq, Repr

/-- The empty event-log store. -/
def EventLogStorage.empty : EventLogStorage :=
  { events := [], assetRecords := [], partitions := [], watchers := [] }

/-- The stored records of one run, in storage (hence ascending-sequence) order. -/
def EventLogStorage.eventsFor (st : EventLogStorage) (run : String) : List EventLogRecord :=
  st.events.filter (fun rec => decide (rec.entry.runId = run))

/-- Modelled from the spec: `store_event(entry)` appends; the store itself
assigns the next per-run sequence number and returns it as the cursor. -/
def EventLogStorage.store_event (st : EventLogStorage) (e : EventLogEntry) :
    Nat × EventLogStorage :=
  let n := (st.eventsFor e.runId).length + 1
  (n, { st with events := st.events ++ [{ seq := n, entry := e }] })

/-- Optional event-type filter of `get_logs_for_run` (none = all types). -/
def typeMatches (of_type : Option (List String)) (rec : EventLogRecord) : Bool :=
  match of_type with
  | none => true
  | some ts => ts.contains rec.entry.eventType

/-- Modelled from the spec: `get_logs_for_run(run_id, cursor, of_type, limit)` —
entries of the run with sequence number strictly greater than `cursor`,
optionally filtered by event type, in ascending sequence order, capped at `limit`. -/
def EventLogStorage.get_logs_for_run (st : EventLogStorage) (run : String) (cursor : Nat)
    (of_type : Option (List String)) (limit : Option Nat) : List EventLogRecord :=
  let l := (st.eventsFor run).filter (fun rec => decide (cursor < rec.seq) && typeMatches of_type rec)
  match limit with
  | none => l
  | some k => l.take k

/-- The asset-record index entry for a key: (last materialization cursor, event). -/
def EventLogStorage.getAssetRecord (st : EventLogStorage) (k : AssetKey) :
    Option (Nat × EventLogEntry) :=
  (st.assetRecords.find? (fun p => decide (p.1 = k))).map Prod.snd

/-- Upsert into the asset-record index: replace the first entry with the key,
or append when the key is absent. -/
def upsertAsset : List (AssetKey × (Nat × EventLogEntry)) → AssetKey → (Nat × EventLogEntry) →
    List (AssetKey × (Nat × EventLogEntry))
  | [], k, v => [(k, v)]
  | p :: rest, k, v => if p.1 = k then (k, v) :: rest else p :: upsertAsset rest k v

/-- Modelled from the spec: ingesting a materialization-type event updates the
AssetRecord for the key iff the incoming event's cursor is strictly greater
than the currently recorded one (last-writer-wins by cursor). -/
def EventLogStorage.ingestMaterialization (st : EventLogStorage) (k : AssetKey)
    (cursor : Nat) (e : EventLogEntry) : EventLogStorage :=
  match st.getAssetRecord k with
  | none => { st with assetRecords := upsertAsset st.assetRecords k (cursor, e) }
  | some (rc, _) =>
    if rc < cursor then { st with assetRecords := upsertAsset st.assetRecords k (cursor, e) }
    else st

/-- Ingest a list of (cursor, event) materializations for one key, in delivery order. -/
def EventLogStorage.ingestAll : EventLogStorage → AssetKey → List (Nat × EventLogEntry) →
    EventLogStorage
  | st, _, [] => st
  | st, k, p :: rest => EventLogStorage.ingestAll (st.ingestMaterialization k p.1 p.2) k rest

/-- Modelled from the spec: `get_latest_materialization_events(asset_keys)` returns
one entry per requested key, or nothing for keys never materialized. -/
def EventLogStorage.get_latest_materialization_events (st : EventLogStorage)
    (asset_keys : List AssetKey) : List (AssetKey × Option EventLogEntry) :=
  asset_keys.map (fun k => (k, (st.getAssetRecord k).map Prod.snd))

/-- The known partition keys of a partition definition (empty when unknown). -/
def EventLogStorage.get_partitions (st : EventLogStorage) (d : String) : List String :=
  ((st.partitions.find? (fun p => decide (p.1 = d))).map Prod.snd).getD []

/-- Modelled from the spec: `has_partition(def, key)`. -/
def EventLogStorage.has_partition (st : EventLogStorage) (d : String) (k : String) : Bool :=
  (st.get_partitions d).contains k

/-- Append the new keys that are not already present, preserving order. -/
def addKeys (cur new : List String) : List String :=
  new.foldl (fun acc k => if acc.contains k then acc else acc ++ [k]) cur

/-- Upsert into the partition index: extend the first entry with the definition
name, or append a fresh entry when the definition is absent. -/
def upsertPartitions : List (String × List String) → String → List String →
    List (String × List String)
  | [], d, keys => [(d, addKeys [] keys)]
  | p :: rest, d, keys =>
    if p.1 = d then (d, addKeys p.2 keys) :: rest else p :: upsertPartitions rest d keys

/-- Modelled from the spec: `add_partitions(def, keys)` — idempotent; adding an
existing key is a no-op, not an error. -/
def EventLogStorage.add_partitions (st : EventLogStorage) (d : String)
    (keys : List String) : EventLogStorage :=
  { st with partitions := upsertPartitions st.partitions d keys }

/-- Modelled from the spec: `watch(run_id, cursor, callback)` registers a live
subscriber (the callback is identified by its handler token). -/
def EventLogStorage.watch (st : EventLogStorage) (run : String) (cursor : Nat)
    (handler : Nat) : EventLogStorage :=
  { st with watchers := st.watchers ++ [{ runId := run, handler := handler, cursor := cursor }] }

/-- Modelled from the spec: `end_watch(run_id, handler)` deregisters the
subscriber; safe (a no-op) when the handler was never registered. -/
def EventLogStorage.end_watch (st : EventLogStorage) (run : String) (handler : Nat) :
    EventLogStorage :=
  { st with watchers := st.watchers.filter (fun w => !(decide (w.runId = run) && decide (w.handler = handler))) }

/-- The cursor after a delivery: the last delivered sequence number, or the old
cursor when nothing was delivered (spec section 4.5). -/
def advanceCursor (delivered : List EventLogRecord) (c : Nat) : Nat :=
  ((delivered.getLast?).map (fun rec => rec.seq)).getD c

/-- Modelled from the spec: one iteration of the PollingWatcher loop (section 4.5)
for the subscriber identified by (run, handler): read
`get_logs_for_run(run_id, cursor, None, None)`, deliver the result in ascending
order, and advance the cursor to the last delivered sequence number.  Returns
the delivered records; delivers nothing when the subscriber is not registered. -/
def EventLogStorage.pollWatcher (st : EventLogStorage) (run : String) (handler : Nat) :
    List EventLogRecord × EventLogStorage :=
  match st.watchers.find? (fun w => decide (w.runId = run) && decide (w.handler = handler)) with
  | none => ([], st)
  | some w =>
    (st.get_logs_for_run run w.cursor none none,
      { st with watchers := st.watchers.map (fun w2 =>
          if w2.runId = run ∧ w2.handler = handler then
            { w2 with cursor := advanceCursor (st.get_logs_for_run run w.cursor none none) w.cursor }
          else w2) })

/-- Instigator kind (spec section 3, entity InstigatorState). -/
inductive InstigatorType where
  | schedule
  | sensor
deriving DecidableEq, Repr

/-- Evaluation tick status (spec section 3, entity InstigatorTick). -/
inductive TickStatus where
  | started
  | success
  | skipped
  | failure
deriving DecidableEq, Repr

/-- Persisted schedule/sensor state, keyed by (origin id, selector id). -/
structure InstigatorState where
  originId : String
  selectorId : String
  instigatorType : InstigatorType
  running : Bool
deriving DecidableEq, Repr

/-- One evaluation attempt of a schedule/sensor. -/
structure InstigatorTick where
  tickId : Nat
  originId : String
  selectorId : String
  status : TickStatus
  timestamp : Nat
deriving DecidableEq, Repr

/-- Modelled from the spec: section 4.3 ScheduleStore state — instigator states
keyed by (origin id, selector id) and the tick history. -/
structure ScheduleStorage where
  states : List InstigatorState
  ticks : List InstigatorTick
deriving DecidableEq, Repr

/-- Modelled from the spec: `all_instigator_state` returns the persisted states,
restricted by the optional origin-id / selector-id / instigator-type filters. -/
def ScheduleStorage.all_instigator_state (st : ScheduleStorage)
    (repository_origin_id : Option String) (repository_selector_id : Option String)
    (instigator_type : Option InstigatorType) : List InstigatorState :=
  st.states.filter (fun s =>
    (match repository_origin_id with
     | none => true
     | some o => decide (s.originId = o)) &&
    (match repository_selector_id with
     | none => true
     | some sel => decide (s.selectorId = sel)) &&
    (match instigator_type with
     | none => true
     | some t => decide (s.instigatorType = t)))

/-- Modelled from the spec: `get_instigator_state(origin_id, selector_id)` returns
the persisted state or nothing. -/
def ScheduleStorage.get_instigator_state (st : ScheduleStorage) (origin_id selector_id : String) :
    Option InstigatorState :=
  st.states.find? (fun s => decide (s.originId = origin_id) && decide (s.selectorId = selector_id))

/-- Modelled from the spec: `add_instigator_state` fails with `AlreadyExists`
when the (origin id, selector id) key is present; state unchanged on failure. -/
def ScheduleStorage.add_instigator_state (st : ScheduleStorage) (s : InstigatorState) :
    Except StorageError InstigatorState × ScheduleStorage :=
  match st.get_instigator_state s.originId s.selectorId with
  | some _ => (Except.error StorageError.AlreadyExists, st)
  | none => (Except.ok s, { st with states := st.states ++ [s] })

/-- Modelled from the spec: `update_instigator_state` fails with `NotFound` when
no state with the key exists; state unchanged on failure. -/
def ScheduleStorage.update_instigator_state (st : ScheduleStorage) (s : InstigatorState) :
    Except StorageError InstigatorState × ScheduleStorage :=
  match st.get_instigator_state s.originId s.selectorId with
  | none => (Except.error StorageError.NotFound, st)
  | some _ =>
    (Except.ok s,
      { st with states := st.states.map (fun s0 =>
          if s0.originId = s.originId ∧ s0.selectorId = s.selectorId then s else s0) })

/-- Optional tick-status restriction of `purge_ticks` (none = all statuses). -/
def tickStatusMatches (statuses : Option (List TickStatus)) (t : InstigatorTick) : Bool :=
  match statuses with
  | none => true
  | some ss => ss.contains t.status

/-- Modelled from the spec: `purge_ticks(origin_id, selector_id, before, tick_statuses)`
deletes the ticks of the key with timestamp strictly less than `before`,
optionally restricted to the given statuses; all other ticks are retained. -/
def ScheduleStorage.purge_ticks (st : ScheduleStorage) (origin_id selector_id : String)
    (before : Nat) (tick_statuses : Option (List TickStatus)) : ScheduleStorage :=
  { st with ticks := st.ticks.filter (fun t =>
      !(decide (t.originId = origin_id) && decide (t.selectorId = selector_id) &&
        decide (t.timestamp < before) && tickStatusMatches tick_statuses t)) }

/-- Opaque handle of the owning instance registered on a storage. -/
abbrev DagsterInstance := Nat

/-- The combined storage of `base_storage.py`: one backend exposing the three
role stores (`run_storage`, `event_log_storage`, `schedule_storage`) and the
optional registered instance (`_instance`). -/
structure DagsterStorage where
  run_storage : RunStorage
  event_log_storage : EventLogStorage
  schedule_storage : ScheduleStorage
  _instance : Option DagsterInstance
deriving DecidableEq, Repr

/-- Modelled from the spec: registering the owning instance on the combined
storage records the instance handle on it. -/
def DagsterStorage.register_instance (s : DagsterStorage) (i : DagsterInstance) :
    DagsterStorage :=
  { s with _instance := some i }

/-- `LegacyRunStorage.register_instance`: registers on the inner combined storage
only when no instance is registered there yet (legacy_storage.py lines 165-167). -/
def LegacyRunStorage.register_instance (s : DagsterStorage) (i : DagsterInstance) :
    DagsterStorage :=
  if s._instance.isNone then s.register_instance i else s

/-- `LegacyRunStorage.add_run`: forwards to the inner run store (line 188-189). -/
def LegacyRunStorage.add_run (s : DagsterStorage) (r : DagsterRun) :
    Except StorageError DagsterRun × DagsterStorage :=
  let res := s.run_storage.add_run r
  (res.1, { s with run_storage := res.2 })

/-- `LegacyRunStorage.handle_run_event`: forwards to the inner run store (line 191-192). -/
def LegacyRunStorage.handle_run_event (s : DagsterStorage) (run_id : String)
    (e : DagsterEvent) : DagsterStorage :=
  { s with run_storage := s.run_storage.handle_run_event run_id e }

/-- `LegacyRunStorage.get_runs`: forwards to the inner run store (lines 194-201). -/
def LegacyRunStorage.get_runs (s : DagsterStorage) (filters : Option RunsFilter)
    (cursor : Option String) (limit : Option Nat) : List DagsterRun :=
  s.run_storage.get_runs filters cursor limit

/-- `LegacyRunStorage.has_run`: forwards to the inner run store (lines 236-237). -/
def LegacyRunStorage.has_run (s : DagsterStorage) (run_id : String) : Bool :=
  s.run_storage.has_run run_id

/-- `LegacyEventLogStorage.register_instance` (lines 376-378). -/
def LegacyEventLogStorage.register_instance (s : DagsterStorage) (i : DagsterInstance) :
    DagsterStorage :=
  if s._instance.isNone then s.register_instance i else s

/-- `LegacyEventLogStorage.get_logs_for_run`: forwards to the inner event-log
store (lines 380-387). -/
def LegacyEventLogStorage.get_logs_for_run (s : DagsterStorage) (run : String)
    (cursor : Nat) (of_type : Option (List String)) (limit : Option Nat) :
    List EventLogRecord :=
  s.event_log_storage.get_logs_for_run run cursor of_type limit

/-- `LegacyEventLogStorage.store_event`: forwards to the inner event-log store
(lines 397-398). -/
def LegacyEventLogStorage.store_event (s : DagsterStorage) (e : EventLogEntry) :
    Nat × DagsterStorage :=
  let res := s.event_log_storage.store_event e
  (res.1, { s with event_log_storage := res.2 })

/-- `LegacyEventLogStorage.watch`: forwards to the inner event-log store (lines 415-416). -/
def LegacyEventLogStorage.watch (s : DagsterStorage) (run : String) (cursor : Nat)
    (handler : Nat) : DagsterStorage :=
  { s with event_log_storage := s.event_log_storage.watch run cursor handler }

/-- `LegacyEventLogStorage.end_watch`: forwards to the inner event-log store (lines 418-419). -/
def LegacyEventLogStorage.end_watch (s : DagsterStorage) (run : String) (handler : Nat) :
    DagsterStorage :=
  { s with event_log_storage := s.event_log_storage.end_watch run handler }

/-- `LegacyEventLogStorage.get_latest_materialization_events` (lines 462-465). -/
def LegacyEventLogStorage.get_latest_materialization_events (s : DagsterStorage)
    (asset_keys : List AssetKey) : List (AssetKey × Option EventLogEntry) :=
  s.event_log_storage.get_latest_materialization_events asset_keys

/-- `LegacyEventLogStorage.get_partitions` (lines 505-506). -/
def LegacyEventLogStorage.get_partitions (s : DagsterStorage) (d : String) : List String :=
  s.event_log_storage.get_partitions d

/-- `LegacyEventLogStorage.has_partition` (lines 508-509). -/
def LegacyEventLogStorage.has_partition (s : DagsterStorage) (d : String) (k : String) : Bool :=
  s.event_log_storage.has_partition d k

/-- `LegacyEventLogStorage.add_partitions`: forwards to the inner event-log store
(lines 511-512). -/
def LegacyEventLogStorage.add_partitions (s : DagsterStorage) (d : String)
    (keys : List String) : DagsterStorage :=
  { s with event_log_storage := s.event_log_storage.add_partitions d keys }

/-- `LegacyScheduleStorage.register_instance` (lines 583-585). -/
def LegacyScheduleStorage.register_instance (s : DagsterStorage) (i : DagsterInstance) :
    DagsterStorage :=
  if s._instance.isNone then s.register_instance i else s

/-- `LegacyScheduleStorage.all_instigator_state` (lines 590-596): the adapter
accepts the three filter arguments but invokes the inner schedule store's
`all_instigator_state()` with no arguments, i.e. with all filters defaulted. -/
def LegacyScheduleStorage.all_instigator_state (s : DagsterStorage)
    (repository_origin_id : Option String) (repository_selector_id : Option String)
    (instigator_type : Option InstigatorType) : List InstigatorState :=
  s.schedule_storage.all_instigator_state none none none

/-- `LegacyScheduleStorage.get_instigator_state` (lines 598-599). -/
def LegacyScheduleStorage.get_instigator_state (s : DagsterStorage)
    (origin_id selector_id : String) : Option InstigatorState :=
  s.schedule_storage.get_instigator_state origin_id selector_id

/-- `LegacyScheduleStorage.add_instigator_state`: forwards to the inner schedule
store (lines 601-602). -/
def LegacyScheduleStorage.add_instigator_state (s : DagsterStorage) (st : InstigatorState) :
    Except StorageError InstigatorState × DagsterStorage :=
  let res := s.schedule_storage.add_instigator_state st
  (res.1, { s with schedule_storage := res.2 })

/-- `LegacyScheduleStorage.update_instigator_state`: forwards to the inner
schedule store (lines 604-605). -/
def LegacyScheduleStorage.update_instigator_state (s : DagsterStorage) (st : InstigatorState) :
    Except StorageError InstigatorState × DagsterStorage :=
  let res := s.schedule_storage.update_instigator_state st
  (res.1, { s with schedule_storage := res.2 })

/-- `LegacyScheduleStorage.purge_ticks`: forwards to the inner schedule store
(lines 641-650). -/
def LegacyScheduleStorage.purge_ticks (s : DagsterStorage) (origin_id selector_id : String)
    (before : Nat) (tick_statuses : Option (List TickStatus)) : DagsterStorage :=
  { s with schedule_storage := s.schedule_storage.purge_ticks origin_id selector_id before tick_statuses }

/-! ### Concrete fixtures used by counterexamples and witnesses -/

/-- A concrete instigator state with key ("o1", "s1"). -/
def exInstigator : InstigatorState :=
  { originId := "o1", selectorId := "s1", instigatorType := InstigatorType.schedule,
    running := true }

/-- A concrete instigator state with key ("o2", "s2"), absent from `exStorage`. -/
def exInstigator2 : InstigatorState :=
  { originId := "o2", selectorId := "s2", instigatorType := InstigatorType.sensor,
    running := false }

/-- A concrete combined storage holding exactly one instigator state. -/
def exStorage : DagsterStorage :=
  { run_storage := { runs := [] }
    event_log_storage := EventLogStorage.empty
    schedule_storage := { states := [exInstigator], ticks := [] }
    _instance := none }

/-- A concrete run. -/
def exRun : DagsterRun := { runId := "r1", status := RunStatus.queued }

/-- `exStorage` after adding `exRun` once. -/
def exStorage2 : DagsterStorage := (LegacyRunStorage.add_run exStorage exRun).2

/-- A tick strictly older than the cutoff 10. -/
def exTickOld : InstigatorTick :=
  { tickId := 1, originId := "o1", selectorId := "s1", status := TickStatus.success,
    timestamp := 5 }

/-- A tick exactly at the cutoff 10. -/
def exTickAt : InstigatorTick :=
  { tickId := 2, originId := "o1", selectorId := "s1", status := TickStatus.success,
    timestamp := 10 }

/-- A concrete combined storage holding the two ticks. -/
def exStorage3 : DagsterStorage :=
  { run_storage := { runs := [] }
    event_log_storage := EventLogStorage.empty
    schedule_storage := { states := [], ticks := [exTickOld, exTickAt] }
    _instance := none }

/-! ### Claim theorems -/

/-- Claim C1 (counterexample / failing input): delegation through the facade is
NOT argument-preserving for `all_instigator_state`.  On a combined storage whose
schedule store holds one state with origin id "o1", calling the facade with the
filter `repository_origin_id = "o2"` returns the state anyway (the adapter
invokes the underlying store with no arguments), while invoking the underlying
schedule store directly with the same filter returns the empty list. -/
theorem all_instigator_state_filters_dropped :
    LegacyScheduleStorage.all_instigator_state exStorage (some "o2") none none
      = [exInstigator] ∧
    exStorage.schedule_storage.all_instigator_state (some "o2") none none = [] ∧
    LegacyScheduleStorage.all_instigator_state exStorage (some "o2") none none ≠
      exStorage.schedule_storage.all_instigator_state (some "o2") none none := by
  refine ⟨rfl, rfl, ?_⟩
  decide

/-- Claim C2: a second `add_run` with an id already present in the run store
fails with the duplicate-id error (`AlreadyExists`), and the storage state is
unchanged by the failed call. -/
theorem add_run_duplicate_fails (s : DagsterStorage) (r : DagsterRun)
    (h : LegacyRunStorage.has_run s r.runId = true) :
    LegacyRunStorage.add_run s r = (Except.error StorageError.AlreadyExists, s) := by
  have h' : s.run_storage.has_run r.runId = true := h
  simp [LegacyRunStorage.add_run, RunStorage.add_run, h']

/-- Claim C2 witness: adding the same run twice from a concrete storage makes
the second call fail with `AlreadyExists` and leave the state unchanged. -/
theorem add_run_duplicate_fails_witness :
    LegacyRunStorage.add_run exStorage2 exRun =
      (Except.error StorageError.AlreadyExists, exStorage2) :=
  add_run_duplicate_fails exStorage2 exRun (by decide)

/-- The purge predicate of `purge_ticks`, as a proposition. -/
lemma purgePred_eq (origin_id selector_id : String) (before : Nat)
    (ts : Option (List TickStatus)) (t : InstigatorTick) :
    ((!(decide (t.originId = origin_id) && decide (t.selectorId = selector_id) &&
      decide (t.timestamp < before) && tickStatusMatches ts t)) = true) ↔
    ¬(t.originId = origin_id ∧ t.selectorId = selector_id ∧ t.timestamp < before ∧
      tickStatusMatches ts t = true) := by
  cases h : tickStatusMatches ts t <;> simp [h] <;> tauto

/-- Claim C5: `purge_ticks(origin_id, selector_id, before, tick_statuses)` keeps
the tick list a sublist of the original (retained ticks unchanged, in order) and
deletes exactly the ticks of the key with timestamp strictly below `before`
whose status matches the optional restriction; ticks at or after the cutoff are
retained. -/
theorem purge_ticks_boundary (s : DagsterStorage) (origin_id selector_id : String)
    (before : Nat) (ts : Option (List TickStatus)) :
    ((LegacyScheduleStorage.purge_ticks s origin_id selector_id before ts).schedule_storage.ticks.Sublist
        s.schedule_storage.ticks) ∧
    (∀ t : InstigatorTick,
      t ∈ (LegacyScheduleStorage.purge_ticks s origin_id selector_id before ts).schedule_storage.ticks ↔
        (t ∈ s.schedule_storage.ticks ∧
          ¬(t.originId = origin_id ∧ t.selectorId = selector_id ∧
            t.timestamp < before ∧ tickStatusMatches ts t = true))) := by
  constructor
  · simpa [LegacyScheduleStorage.purge_ticks, ScheduleStorage.purge_ticks] using
      List.filter_sublist (l := s.schedule_storage.ticks)
  · intro t
    simp only [LegacyScheduleStorage.purge_ticks, ScheduleStorage.purge_ticks, List.mem_filter,
      purgePred_eq]

/-- Claim C5 witness: with ticks at timestamps 5 and 10 and cutoff 10, the tick
at the cutoff is retained and the strictly older one is removed. -/
theorem purge_ticks_boundary_witness :
    exTickAt ∈ (LegacyScheduleStorage.purge_ticks exStorage3 "o1" "s1" 10 none).schedule_storage.ticks ∧
    exTickOld ∉ (LegacyScheduleStorage.purge_ticks exStorage3 "o1" "s1" 10 none).schedule_storage.ticks := by
  constructor
  · exact ((purge_ticks_boundary exStorage3 "o1" "s1" 10 none).2 exTickAt).mpr
      ⟨by decide, by decide⟩
  · intro hmem
    exact (((purge_ticks_boundary exStorage3 "o1" "s1" 10 none).2 exTickOld).mp hmem).2
      (by decide)

/-- Claim C6: for a given (origin id, selector id) key, `add_instigator_state`
fails with `AlreadyExists` when a state for the key is present and
`update_instigator_state` fails with `NotFound` when none exists; in both
failure cases the storage is unchanged. -/
theorem instigator_add_update_failure (s : DagsterStorage) (st : InstigatorState) :
    ((LegacyScheduleStorage.get_instigator_state s st.originId st.selectorId).isSome = true →
      LegacyScheduleStorage.add_instigator_state s st =
        (Except.error StorageError.AlreadyExists, s)) ∧
    (LegacyScheduleStorage.get_instigator_state s st.originId st.selectorId = none →
      LegacyScheduleStorage.update_instigator_state s st =
        (Except.error StorageError.NotFound, s)) := by
  constructor
  · intro h
    have h' : (s.schedule_storage.get_instigator_state st.originId st.selectorId).isSome = true := h
    obtain ⟨x, hx⟩ := Option.isSome_iff_exists.mp h'
    simp [LegacyScheduleStorage.add_instigator_state, ScheduleStorage.add_instigator_state, hx]
  · intro h
    have h' : s.schedule_storage.get_instigator_state st.originId st.selectorId = none := h
    simp [LegacyScheduleStorage.update_instigator_state, ScheduleStorage.update_instigator_state, h']

/-- Claim C6 witness: on a concrete storage containing the key ("o1", "s1"),
adding that key fails with `AlreadyExists` and updating the absent key
("o2", "s2") fails with `NotFound`, both leaving the storage unchanged. -/
theorem instigator_add_update_failure_witness :
    LegacyScheduleStorage.add_instigator_state exStorage exInstigator =
      (Except.error StorageError.AlreadyExists, exStorage) ∧
    LegacyScheduleStorage.update_instigator_state exStorage exInstigator2 =
      (Except.error StorageError.NotFound, exStorage) :=
  ⟨(instigator_add_update_failure exStorage exInstigator).1 (by decide),
   (instigator_add_update_failure exStorage exInstigator2).2 (by decide)⟩

/-- Claim C9: `handle_run_event` on an unknown run id is a silent no-op (the
storage is unchanged and no error is raised), and the delegation layer passes
results — error results included — of the underlying stores through unchanged
(`add_run`, `store_event`, `add_instigator_state`, `update_instigator_state`). -/
theorem handle_run_event_noop_and_propagation (s : DagsterStorage) (run_id : String)
    (ev : DagsterEvent) (r : DagsterRun) (e : EventLogEntry) (ist : InstigatorState) :
    (LegacyRunStorage.has_run s run_id = false →
      LegacyRunStorage.handle_run_event s run_id ev = s) ∧
    ((LegacyRunStorage.add_run s r).1 = (s.run_storage.add_run r).1) ∧
    (∀ err : StorageError, (s.run_storage.add_run r).1 = Except.error err →
      (LegacyRunStorage.add_run s r).1 = Except.error err) ∧
    ((LegacyEventLogStorage.store_event s e).1 = (s.event_log_storage.store_event e).1) ∧
    ((LegacyScheduleStorage.add_instigator_state s ist).1 =
      (s.schedule_storage.add_instigator_state ist).1) ∧
    (∀ err : StorageError, (s.schedule_storage.update_instigator_state ist).1 = Except.error err →
      (LegacyScheduleStorage.update_instigator_state s ist).1 = Except.error err) := by
  refine ⟨?_, rfl, ?_, rfl, rfl, ?_⟩
  · intro h
    have h' : s.run_storage.has_run r.runId = true → True := fun _ => trivial
    have hall : ∀ x ∈ s.run_storage.runs, x.runId ≠ run_id := by
      have hfalse : s.run_storage.runs.any (fun x => decide (x.runId = run_id)) = false := h
      intro x hx
      have := List.any_eq_false.mp hfalse x hx
      simpa using this
    unfold LegacyRunStorage.handle_run_event RunStorage.handle_run_event
    have hmap : s.run_storage.runs.map (fun x =>
        if x.runId = run_id then { x with status := ev.newStatus } else x) =
        s.run_storage.runs := by
      have := List.map_congr_left (l := s.run_storage.runs)
        (f := fun x => if x.runId = run_id then { x with status := ev.newStatus } else x)
        (g := id) (fun x hx => by simp [hall x hx])
      simpa using this
    rw [hmap]
  · intro err herr
    simpa [LegacyRunStorage.add_run] using herr
  · intro err herr
    simpa [LegacyScheduleStorage.update_instigator_state] using herr

/-- Claim C9 witness: on concrete storages, `handle_run_event` with an unknown
run id returns the storage unchanged, and a duplicate `add_run` error of the
underlying run store surfaces unchanged through the facade. -/
theorem handle_run_event_noop_and_propagation_witness :
    LegacyRunStorage.handle_run_event exStorage "unknown-run"
      { newStatus := RunStatus.success } = exStorage ∧
    (LegacyRunStorage.add_run exStorage2 exRun).1 =
      Except.error StorageError.AlreadyExists := by
  constructor
  · exact (handle_run_event_noop_and_propagation exStorage "unknown-run"
      { newStatus := RunStatus.success } exRun
      { runId := "r1", eventType := "STEP_START" } exInstigator).1 (by decide)
  · exact (handle_run_event_noop_and_propagation exStorage2 "unknown-run"
      { newStatus := RunStatus.success } exRun
      { runId := "r1", eventType := "STEP_START" } exInstigator).2.2.1
      StorageError.AlreadyExists (by rfl)

/-- Claim C10: `register_instance` on every legacy role adapter is first-wins:
it registers the instance on the inner combined storage only when none is
registered yet, and once an instance is registered every further
`register_instance` call, on any role adapter and with any instance, leaves the
storage (hence the originally registered instance) unchanged. -/
theorem register_instance_first_wins (s : DagsterStorage) (i j : DagsterInstance) :
    (s._instance = none →
      (LegacyRunStorage.register_instance s i)._instance = some i ∧
      (LegacyEventLogStorage.register_instance s i)._instance = some i ∧
      (LegacyScheduleStorage.register_instance s i)._instance = some i) ∧
    (s._instance = some i →
      LegacyRunStorage.register_instance s j = s ∧
      LegacyEventLogStorage.register_instance s j = s ∧
      LegacyScheduleStorage.register_instance s j = s) := by
  constructor <;> intro h <;>
    simp [LegacyRunStorage.register_instance, LegacyEventLogStorage.register_instance,
      LegacyScheduleStorage.register_instance, DagsterStorage.register_instance, h]

/-- Claim C10 witness: registering instance 7 through the run-role adapter on a
fresh storage records it, and a later registration of instance 9 through the
event-log-role adapter leaves the storage unchanged. -/
theorem register_instance_first_wins_witness :
    (LegacyRunStorage.register_instance exStorage 7)._instance = some 7 ∧
    LegacyEventLogStorage.register_instance (LegacyRunStorage.register_instance exStorage 7) 9 =
      LegacyRunStorage.register_instance exStorage 7 := by
  have h1 := (register_instance_first_wins exStorage 7 9).1 rfl
  exact ⟨h1.1,
    ((register_instance_first_wins (LegacyRunStorage.register_instance exStorage 7) 7 9).2 h1.1).2.1⟩

/-- Looking up the upserted key in the partition index finds the extended entry. -/
lemma find?_upsertPartitions (l : List (String × List String)) (d : String)
    (keys : List String) :
    (upsertPartitions l d keys).find? (fun p => decide (p.1 = d)) =
      some (d, addKeys (((l.find? (fun p => decide (p.1 = d))).map Prod.snd).getD []) keys) := by
  induction l with
  | nil => simp [upsertPartitions]
  | cons p rest ih =>
    by_cases hp : p.1 = d
    · simp [upsertPartitions, hp, List.find?_cons_of_pos]
    · rw [upsertPartitions]
      rw [if_neg hp]
      rw [List.find?_cons_of_neg _ (by simpa using hp), List.find?_cons_of_neg _ (by simpa using hp)]
      exact ih

/-- `add_partitions` extends the key list of the definition with the fresh keys. -/
lemma get_partitions_add (st : EventLogStorage) (d : String) (keys : List String) :
    (st.add_partitions d keys).get_partitions d = addKeys (st.get_partitions d) keys := by
  unfold EventLogStorage.add_partitions EventLogStorage.get_partitions
  rw [find?_upsertPartitions]
  simp

/-- Adding a single key already present for its definition leaves the partition
index unchanged. -/
lemma upsertPartitions_noop (l : List (String × List String)) (d k : String)
    (h : (((l.find? (fun p => decide (p.1 = d))).map Prod.snd).getD []).contains k = true) :
    upsertPartitions l d [k] = l := by
  induction l with
  | nil => simp at h
  | cons p rest ih =>
    by_cases hp : p.1 = d
    · rw [List.find?_cons_of_pos _ (by simpa using hp)] at h
      simp only [Option.map_some', Option.getD_some] at h
      have hadd : addKeys p.2 [k] = p.2 := by
        simp only [addKeys, List.foldl_cons, List.foldl_nil, h, ite_true]
      rw [upsertPartitions]
      rw [if_pos hp, hadd, ← hp, Prod.mk.eta]
    · rw [List.find?_cons_of_neg _ (by simpa using hp)] at h
      rw [upsertPartitions]
      rw [if_neg hp, ih h]

/-- Claim C8: `add_partitions` is idempotent — adding a key that is already
present is a no-op (not an error), and two successive calls adding the same key
leave exactly one entry for that key; and `end_watch` called with a handler
that was never registered is a no-op rather than an error. -/
theorem add_partitions_idempotent (s : DagsterStorage) (d k : String) (run : String)
    (hdl : Nat) :
    (LegacyEventLogStorage.has_partition s d k = true →
      LegacyEventLogStorage.add_partitions s d [k] = s) ∧
    ((LegacyEventLogStorage.get_partitions s d).count k ≤ 1 →
      (LegacyEventLogStorage.get_partitions (LegacyEventLogStorage.add_partitions s d [k]) d).count k = 1 ∧
      LegacyEventLogStorage.add_partitions (LegacyEventLogStorage.add_partitions s d [k]) d [k] =
        LegacyEventLogStorage.add_partitions s d [k]) ∧
    ((∀ w ∈ s.event_log_storage.watchers, ¬(w.runId = run ∧ w.handler = hdl)) →
      LegacyEventLogStorage.end_watch s run hdl = s) := by
  have hnoop : ∀ s' : DagsterStorage, LegacyEventLogStorage.has_partition s' d k = true →
      LegacyEventLogStorage.add_partitions s' d [k] = s' := by
    intro s' h
    have h' : (((s'.event_log_storage.partitions.find? (fun p => decide (p.1 = d))).map
        Prod.snd).getD []).contains k = true := h
    unfold LegacyEventLogStorage.add_partitions EventLogStorage.add_partitions
    rw [upsertPartitions_noop _ _ _ h']
  refine ⟨hnoop s, ?_, ?_⟩
  · intro hc
    have hc' : (s.event_log_storage.get_partitions d).count k ≤ 1 := hc
    have hadd : (LegacyEventLogStorage.get_partitions (LegacyEventLogStorage.add_partitions s d [k]) d)
        = addKeys (s.event_log_storage.get_partitions d) [k] :=
      get_partitions_add s.event_log_storage d [k]
    have hcount : (addKeys (s.event_log_storage.get_partitions d) [k]).count k = 1 := by
      by_cases hk : (s.event_log_storage.get_partitions d).contains k = true
      · have hmem : k ∈ s.event_log_storage.get_partitions d := List.elem_iff.mp hk
        have h1 : 1 ≤ (s.event_log_storage.get_partitions d).count k :=
          List.count_pos_iff.mpr hmem
        have heq : addKeys (s.event_log_storage.get_partitions d) [k]
            = s.event_log_storage.get_partitions d := by
          simp only [addKeys, List.foldl_cons, List.foldl_nil, hk, ite_true]
        rw [heq]
        omega
      · have hmem : k ∉ s.event_log_storage.get_partitions d :=
          fun hm => hk (List.elem_iff.mpr hm)
        have h0 : (s.event_log_storage.get_partitions d).count k = 0 :=
          List.count_eq_zero.mpr hmem
        have heq : addKeys (s.event_log_storage.get_partitions d) [k]
            = s.event_log_storage.get_partitions d ++ [k] := by
          simp only [addKeys, List.foldl_cons, List.foldl_nil]
          rw [if_neg (by simpa using hk)]
        rw [heq]
        simp [List.count_append, h0]
    constructor
    · rw [hadd]
      exact hcount
    · apply hnoop
      have hmem2 : k ∈ addKeys (s.event_log_storage.get_partitions d) [k] := by
        have hpos : 0 < (addKeys (s.event_log_storage.get_partitions d) [k]).count k := by
          omega
        exact List.count_pos_iff.mp hpos
      have : (LegacyEventLogStorage.get_partitions (LegacyEventLogStorage.add_partitions s d [k]) d).contains k = true := by
        rw [hadd]
        exact List.elem_iff.mpr hmem2
      exact this
  · intro hw
    unfold LegacyEventLogStorage.end_watch EventLogStorage.end_watch
    have : s.event_log_storage.watchers.filter
        (fun w => !(decide (w.runId = run) && decide (w.handler = hdl)))
        = s.event_log_storage.watchers := by
      apply List.filter_eq_self.mpr
      intro w hwmem
      have := hw w hwmem
      simp only [Bool.not_eq_true', Bool.and_eq_false_iff, decide_eq_false_iff_not]
      tauto
    rw [this]

/-- Claim C8 witness: on a concrete storage, adding partition key "p1" twice to
definition "daily" leaves exactly one "p1" entry, and `end_watch` with an
unregistered handler is a no-op. -/
theorem add_partitions_idempotent_witness :
    (LegacyEventLogStorage.get_partitions
        (LegacyEventLogStorage.add_partitions exStorage "daily" ["p1"]) "daily").count "p1" = 1 ∧
    LegacyEventLogStorage.add_partitions
        (LegacyEventLogStorage.add_partitions exStorage "daily" ["p1"]) "daily" ["p1"] =
      LegacyEventLogStorage.add_partitions exStorage "daily" ["p1"] ∧
    LegacyEventLogStorage.end_watch exStorage "r1" 0 = exStorage := by
  have h2 := (add_partitions_idempotent exStorage "daily" "p1" "r1" 0).2.1 (by decide)
  have h3 := (add_partitions_idempotent exStorage "daily" "p1" "r1" 0).2.2
    (by intro w hw; simp [exStorage, EventLogStorage.empty] at hw)
  exact ⟨h2.1, h2.2, h3⟩

/-- Looking up the upserted key in the asset index finds the new value. -/
lemma find?_upsertAsset (l : List (AssetKey × (Nat × EventLogEntry))) (k : AssetKey)
    (v : Nat × EventLogEntry) :
    (upsertAsset l k v).find? (fun p => decide (p.1 = k)) = some (k, v) := by
  induction l with
  | nil => simp [upsertAsset]
  | cons p rest ih =>
    by_cases hp : p.1 = k
    · simp [upsertAsset, hp, List.find?_cons_of_pos]
    · rw [upsertAsset, if_neg hp, List.find?_cons_of_neg _ (by simpa using hp)]
      exact ih

/-- After an upsert, the asset record of the key is the upserted value. -/
lemma getAssetRecord_upsert (st : EventLogStorage) (k : AssetKey) (v : Nat × EventLogEntry) :
    ({ st with assetRecords := upsertAsset st.assetRecords k v } : EventLogStorage).getAssetRecord k
      = some v := by
  unfold EventLogStorage.getAssetRecord
  simp [find?_upsertAsset]

/-- Ingesting with no record present installs the incoming (cursor, event). -/
lemma ingest_from_none (st : EventLogStorage) (k : AssetKey) (c : Nat) (e : EventLogEntry)
    (h : st.getAssetRecord k = none) :
    (st.ingestMaterialization k c e).getAssetRecord k = some (c, e) := by
  unfold EventLogStorage.ingestMaterialization
  rw [h]
  exact getAssetRecord_upsert st k (c, e)

/-- Ingesting with a strictly greater cursor replaces the record. -/
lemma ingest_gt (st : EventLogStorage) (k : AssetKey) (c : Nat) (e : EventLogEntry)
    (rc : Nat) (e0 : EventLogEntry) (h : st.getAssetRecord k = some (rc, e0)) (hlt : rc < c) :
    (st.ingestMaterialization k c e).getAssetRecord k = some (c, e) := by
  unfold EventLogStorage.ingestMaterialization
  simp only [h]
  rw [if_pos hlt]
  exact getAssetRecord_upsert st k (c, e)

/-- Ingesting with a cursor not strictly greater is a no-op. -/
lemma ingest_stale (st : EventLogStorage) (k : AssetKey) (c : Nat) (e : EventLogEntry)
    (rc : Nat) (e0 : EventLogEntry) (h : st.getAssetRecord k = some (rc, e0)) (hge : ¬ rc < c) :
    st.ingestMaterialization k c e = st := by
  unfold EventLogStorage.ingestMaterialization
  simp only [h]
  rw [if_neg hge]

/-- After ingesting a batch on top of an existing record, the recorded cursor is
the running maximum of the existing cursor and the incoming cursors. -/
lemma ingestAll_max (k : AssetKey) :
    ∀ (l : List (Nat × EventLogEntry)) (st : EventLogStorage) (rc : Nat) (ev : EventLogEntry),
      st.getAssetRecord k = some (rc, ev) →
      ∃ ev2, (st.ingestAll k l).getAssetRecord k = some ((l.map Prod.fst).foldl max rc, ev2) := by
  intro l
  induction l with
  | nil =>
    intro st rc ev h
    exact ⟨ev, by simpa [EventLogStorage.ingestAll] using h⟩
  | cons p rest ih =>
    intro st rc ev h
    rw [EventLogStorage.ingestAll]
    simp only [List.map_cons, List.foldl_cons]
    by_cases hlt : rc < p.1
    · have h2 := ingest_gt st k p.1 p.2 rc ev h hlt
      obtain ⟨ev2, hev2⟩ := ih (st.ingestMaterialization k p.1 p.2) p.1 p.2 h2
      refine ⟨ev2, ?_⟩
      rw [hev2, Nat.max_eq_right (Nat.le_of_lt hlt)]
    · have h2 := ingest_stale st k p.1 p.2 rc ev h hlt
      rw [h2]
      obtain ⟨ev2, hev2⟩ := ih st rc ev h
      refine ⟨ev2, ?_⟩
      rw [hev2, Nat.max_eq_left (Nat.not_lt.mp hlt)]

/-- Claim C4: ingesting a materialization-type event updates the AssetRecord for
its key iff the incoming cursor is strictly greater than the currently recorded
one (last-writer-wins by cursor); consequently, for any delivery order of
materialization events starting from an unmaterialized key, the final
AssetRecord carries the greatest cursor seen, and
`get_latest_materialization_events` returns the recorded event. -/
theorem asset_record_last_writer_wins (st : EventLogStorage) (k : AssetKey) (c : Nat)
    (e : EventLogEntry) :
    (st.getAssetRecord k = none →
      (st.ingestMaterialization k c e).getAssetRecord k = some (c, e)) ∧
    (∀ rc e0, st.getAssetRecord k = some (rc, e0) →
      ((rc < c → (st.ingestMaterialization k c e).getAssetRecord k = some (c, e)) ∧
       (¬ rc < c → st.ingestMaterialization k c e = st))) ∧
    (∀ l : List (Nat × EventLogEntry), st.getAssetRecord k = none → l ≠ [] →
      ∃ ev, (st.ingestAll k l).getAssetRecord k = some ((l.map Prod.fst).foldl max 0, ev) ∧
        (st.ingestAll k l).get_latest_materialization_events [k] = [(k, some ev)]) := by
  refine ⟨ingest_from_none st k c e, ?_, ?_⟩
  · intro rc e0 h
    exact ⟨ingest_gt st k c e rc e0 h, ingest_stale st k c e rc e0 h⟩
  · intro l hnone hne
    match l with
    | [] => exact absurd rfl hne
    | p :: rest =>
      have h1 := ingest_from_none st k p.1 p.2 hnone
      obtain ⟨ev, hev⟩ := ingestAll_max k rest (st.ingestMaterialization k p.1 p.2) p.1 p.2 h1
      refine ⟨ev, ?_, ?_⟩
      · rw [EventLogStorage.ingestAll]
        simp only [List.map_cons, List.foldl_cons]
        rw [hev, Nat.max_eq_right (Nat.zero_le p.1)]
      · rw [EventLogStorage.ingestAll]
        unfold EventLogStorage.get_latest_materialization_events
        simp only [List.map_cons, List.map_nil]
        rw [show ((EventLogStorage.ingestAll (st.ingestMaterialization k p.1 p.2) k rest).getAssetRecord k) = some ((rest.map Prod.fst).foldl max p.1, ev) from hev]
        rfl

/-- A concrete asset key and two materialization events. -/
def exAssetKey : AssetKey := ["asset1"]

/-- First concrete materialization event (cursor 5 in the scenario). -/
def exMat1 : EventLogEntry := { runId := "r1", eventType := "ASSET_MATERIALIZATION" }

/-- Second concrete materialization event (cursor 3 in the scenario). -/
def exMat2 : EventLogEntry := { runId := "r2", eventType := "ASSET_MATERIALIZATION" }

/-- Claim C4 witness: delivering cursors 5 then 3 leaves the AssetRecord at
cursor 5 with the first event (the out-of-order event does not regress state). -/
theorem asset_record_last_writer_wins_witness :
    (EventLogStorage.empty.ingestMaterialization exAssetKey 5 exMat1).getAssetRecord exAssetKey
      = some (5, exMat1) ∧
    (EventLogStorage.empty.ingestMaterialization exAssetKey 5 exMat1).ingestMaterialization
        exAssetKey 3 exMat2
      = EventLogStorage.empty.ingestMaterialization exAssetKey 5 exMat1 := by
  have h1 := (asset_record_last_writer_wins EventLogStorage.empty exAssetKey 5 exMat1).1 rfl
  have h2 := ((asset_record_last_writer_wins
      (EventLogStorage.empty.ingestMaterialization exAssetKey 5 exMat1) exAssetKey 3 exMat2).2.1
      5 exMat1 h1).2 (by omega)
  exact ⟨h1, h2⟩

/-- Store a sequence of entries, in call order. -/
def EventLogStorage.storeAll : EventLogStorage → List EventLogEntry → EventLogStorage
  | st, [] => st
  | st, e :: es => EventLogStorage.storeAll (st.store_event e).2 es

/-- Store a sequence of entries and collect the cursors returned by each call. -/
def EventLogStorage.storeCursors : EventLogStorage → List EventLogEntry →
    List Nat × EventLogStorage
  | st, [] => ([], st)
  | st, e :: es =>
    ((st.store_event e).1 :: (EventLogStorage.storeCursors (st.store_event e).2 es).1,
     (EventLogStorage.storeCursors (st.store_event e).2 es).2)

/-- `store_event` appends the new record to the run's slice and leaves other runs alone. -/
lemma eventsFor_store (st : EventLogStorage) (e : EventLogEntry) (run : String) :
    ((st.store_event e).2).eventsFor run =
      st.eventsFor run ++
        (if e.runId = run then
          [{ seq := (st.eventsFor e.runId).length + 1, entry := e }] else []) := by
  show (st.events ++ ([{ seq := (st.eventsFor e.runId).length + 1, entry := e }] :
      List EventLogRecord)).filter
      (fun rec => decide (rec.entry.runId = run)) = _
  rw [List.filter_append]
  have h2 : List.filter (fun rec : EventLogRecord => decide (rec.entry.runId = run))
      ([{ seq := (st.eventsFor e.runId).length + 1, entry := e }] : List EventLogRecord) =
      (if e.runId = run then
        ([{ seq := (st.eventsFor e.runId).length + 1, entry := e }] : List EventLogRecord)
       else []) := by
    by_cases h : e.runId = run <;> simp [List.filter_cons, h]
  rw [h2]
  rfl

/-- After storing a batch of entries, a run's sequence numbers extend its
existing block by a contiguous block, one number per stored entry of that run. -/
lemma eventsFor_storeAll_seqs (r : String) :
    ∀ (es : List EventLogEntry) (st : EventLogStorage),
      ((EventLogStorage.storeAll st es).eventsFor r).map (fun rec => rec.seq) =
        (st.eventsFor r).map (fun rec => rec.seq) ++
          List.range' ((st.eventsFor r).length + 1)
            (es.filter (fun e => decide (e.runId = r))).length := by
  intro es
  induction es with
  | nil => intro st; simp [EventLogStorage.storeAll]
  | cons e es ih =>
    intro st
    rw [EventLogStorage.storeAll]
    rw [ih ((st.store_event e).2)]
    by_cases he : e.runId = r
    · have hfc : (e :: es).filter (fun e => decide (e.runId = r)) =
          e :: es.filter (fun e => decide (e.runId = r)) := by
        simp [List.filter_cons, he]
      rw [hfc, eventsFor_store, if_pos he, he]
      simp only [List.map_append, List.map_cons, List.map_nil, List.length_append,
        List.length_cons, List.length_nil, List.length_map]
      rw [List.append_assoc]
      congr 1
    · have hfc : (e :: es).filter (fun e => decide (e.runId = r)) =
          es.filter (fun e => decide (e.runId = r)) := by
        simp [List.filter_cons, he]
      rw [hfc, eventsFor_store, if_neg he]
      simp only [List.append_nil]

/-- The cursors returned by storing single-run entries form the contiguous
block starting right after the run's current count, and the final state agrees
with `storeAll`. -/
lemma storeCursors_spec (r : String) :
    ∀ (es : List EventLogEntry) (st : EventLogStorage), (∀ e ∈ es, e.runId = r) →
      (EventLogStorage.storeCursors st es).1 =
        List.range' ((st.eventsFor r).length + 1) es.length ∧
      (EventLogStorage.storeCursors st es).2 = EventLogStorage.storeAll st es := by
  intro es
  induction es with
  | nil => intro st _; simp [EventLogStorage.storeCursors, EventLogStorage.storeAll]
  | cons e es ih =>
    intro st h
    have he : e.runId = r := h e (List.mem_cons_self e es)
    obtain ⟨ih1, ih2⟩ := ih ((st.store_event e).2) (fun x hx => h x (List.mem_cons_of_mem e hx))
    have hlen : (((st.store_event e).2).eventsFor r).length = (st.eventsFor r).length + 1 := by
      rw [eventsFor_store, if_pos he]
      simp
    constructor
    · show (st.store_event e).1 :: (EventLogStorage.storeCursors (st.store_event e).2 es).1 =
        List.range' ((st.eventsFor r).length + 1) (e :: es).length
      rw [ih1, hlen]
      simp only [List.length_cons]
      rw [List.range'_succ]
      congr 1
      show (st.eventsFor e.runId).length + 1 = (st.eventsFor r).length + 1
      rw [he]
    · show (EventLogStorage.storeCursors (st.store_event e).2 es).2 =
        EventLogStorage.storeAll st (e :: es)
      rw [ih2, EventLogStorage.storeAll]

/-- `storeAll` appends exactly the given entries to the stored event list. -/
lemma storeAll_entries : ∀ (es : List EventLogEntry) (st : EventLogStorage),
    (EventLogStorage.storeAll st es).events.map (fun rec => rec.entry) =
      st.events.map (fun rec => rec.entry) ++ es := by
  intro es
  induction es with
  | nil => intro st; simp [EventLogStorage.storeAll]
  | cons e es ih =>
    intro st
    rw [EventLogStorage.storeAll, ih]
    show ((st.events ++ ([{ seq := (st.eventsFor e.runId).length + 1, entry := e }] :
      List EventLogRecord)).map
      (fun rec => rec.entry)) ++ es = _
    simp

/-- `range'` with step 1 is strictly increasing. -/
lemma pairwise_lt_range1 : ∀ (n s : Nat), (List.range' s n).Pairwise (· < ·) := by
  intro n
  induction n with
  | zero => intro s; simp
  | succ n ih =>
    intro s
    rw [List.range'_succ]
    refine List.Pairwise.cons ?_ (ih (s + 1))
    intro b hb
    rcases List.mem_range'.mp hb with ⟨i, _, rfl⟩
    omega

/-- From sequence numbers forming a `range'`, the records are strictly
increasing in sequence number. -/
lemma pairwise_seq_of_map_range' (l : List EventLogRecord) (s n : Nat)
    (h : l.map (fun rec => rec.seq) = List.range' s n) :
    l.Pairwise (fun a b => a.seq < b.seq) := by
  have hp : (l.map (fun rec => rec.seq)).Pairwise (· < ·) := by
    rw [h]
    exact pairwise_lt_range1 n s
  exact List.pairwise_map.mp hp

/-- From sequence numbers forming `range' 1 n`, every sequence number is at least 1. -/
lemma seq_pos_of_map_range1 (l : List EventLogRecord) (n : Nat)
    (h : l.map (fun rec => rec.seq) = List.range' 1 n) :
    ∀ rec ∈ l, 1 ≤ rec.seq := by
  intro rec hrec
  have hmem : rec.seq ∈ List.range' 1 n := by
    rw [← h]
    exact List.mem_map_of_mem _ hrec
  rcases List.mem_range'.mp hmem with ⟨i, _, heq⟩
  omega

/-- The result of `get_logs_for_run` is a sublist of the run's stored records. -/
lemma get_logs_sublist (st : EventLogStorage) (run : String) (c : Nat)
    (ty : Option (List String)) (lim : Option Nat) :
    (st.get_logs_for_run run c ty lim).Sublist (st.eventsFor run) := by
  cases lim with
  | none =>
    simpa [EventLogStorage.get_logs_for_run] using
      List.filter_sublist (l := st.eventsFor run)
  | some k =>
    simpa [EventLogStorage.get_logs_for_run] using
      (List.take_sublist k _).trans (List.filter_sublist (l := st.eventsFor run))

/-- Every record returned by `get_logs_for_run` is a stored record of the run
with sequence number strictly above the cursor and a matching type. -/
lemma mem_get_logs (st : EventLogStorage) (run : String) (c : Nat)
    (ty : Option (List String)) (lim : Option Nat) (rec : EventLogRecord)
    (h : rec ∈ st.get_logs_for_run run c ty lim) :
    rec ∈ st.eventsFor run ∧ c < rec.seq ∧ typeMatches ty rec = true := by
  have hf : rec ∈ (st.eventsFor run).filter
      (fun rec => decide (c < rec.seq) && typeMatches ty rec) := by
    cases lim with
    | none => exact h
    | some k => exact (List.take_sublist k _).subset h
  have hmf := List.mem_filter.mp hf
  have hb := hmf.2
  simp only [Bool.and_eq_true, decide_eq_true_eq] at hb
  exact ⟨hmf.1, hb.1, hb.2⟩

/-- `get_logs_for_run` returns at most `limit` records. -/
lemma length_get_logs_le (st : EventLogStorage) (run : String) (c : Nat)
    (ty : Option (List String)) (k : Nat) :
    (st.get_logs_for_run run c ty (some k)).length ≤ k := by
  show (((st.eventsFor run).filter
    (fun rec => decide (c < rec.seq) && typeMatches ty rec)).take k).length ≤ k
  rw [List.length_take]
  exact Nat.min_le_left _ _

/-- Claim C3: storing a sequence of events on a single run from an empty store
has the store itself assign the cursors 1, 2, ... in call order (strictly
increasing); `get_logs_for_run(run, 0, None, None)` returns exactly those
events, in that same ascending order; and in general `get_logs_for_run` with
cursor `c` returns only records with sequence number strictly greater than `c`,
in ascending sequence order, capped at the given limit. -/
theorem store_event_cursors_and_read (es : List EventLogEntry) (r : String)
    (hall : ∀ e ∈ es, e.runId = r) :
    (EventLogStorage.storeCursors EventLogStorage.empty es).1 = List.range' 1 es.length ∧
    (EventLogStorage.storeCursors EventLogStorage.empty es).1.Pairwise (· < ·) ∧
    ((EventLogStorage.storeAll EventLogStorage.empty es).get_logs_for_run r 0 none none =
      (EventLogStorage.storeAll EventLogStorage.empty es).eventsFor r) ∧
    (((EventLogStorage.storeAll EventLogStorage.empty es).get_logs_for_run r 0 none none).map
        (fun rec => rec.entry) = es) ∧
    (∀ (c : Nat) (lim : Option Nat),
      (∀ rec ∈ (EventLogStorage.storeAll EventLogStorage.empty es).get_logs_for_run r c none lim,
        c < rec.seq) ∧
      ((EventLogStorage.storeAll EventLogStorage.empty es).get_logs_for_run r c none lim).Pairwise
        (fun a b => a.seq < b.seq) ∧
      (∀ k, lim = some k →
        ((EventLogStorage.storeAll EventLogStorage.empty es).get_logs_for_run r c none lim).length
          ≤ k)) := by
  have hcur := storeCursors_spec r es EventLogStorage.empty hall
  have hfes : es.filter (fun e => decide (e.runId = r)) = es :=
    List.filter_eq_self.mpr (fun e he => by simp [hall e he])
  have hseqs : ((EventLogStorage.storeAll EventLogStorage.empty es).eventsFor r).map
      (fun rec => rec.seq) = List.range' 1 es.length := by
    have h := eventsFor_storeAll_seqs r es EventLogStorage.empty
    rw [hfes] at h
    simpa [EventLogStorage.eventsFor, EventLogStorage.empty] using h
  have hpos := seq_pos_of_map_range1 _ _ hseqs
  have hpair := pairwise_seq_of_map_range' _ _ _ hseqs
  have hreadall : (EventLogStorage.storeAll EventLogStorage.empty es).get_logs_for_run r 0 none none =
      (EventLogStorage.storeAll EventLogStorage.empty es).eventsFor r := by
    show ((EventLogStorage.storeAll EventLogStorage.empty es).eventsFor r).filter
      (fun rec => decide (0 < rec.seq) && typeMatches none rec) = _
    apply List.filter_eq_self.mpr
    intro rec hrec
    have h1 := hpos rec hrec
    simp [typeMatches]
    omega
  refine ⟨?_, ?_, hreadall, ?_, ?_⟩
  · simpa [EventLogStorage.eventsFor, EventLogStorage.empty] using hcur.1
  · have h1 : (EventLogStorage.storeCursors EventLogStorage.empty es).1
        = List.range' 1 es.length := by
      simpa [EventLogStorage.eventsFor, EventLogStorage.empty] using hcur.1
    rw [h1]
    exact pairwise_lt_range1 es.length 1
  · rw [hreadall]
    have hentries : (EventLogStorage.storeAll EventLogStorage.empty es).events.map
        (fun rec => rec.entry) = es := by
      simpa [EventLogStorage.empty] using storeAll_entries es EventLogStorage.empty
    have hfor : (EventLogStorage.storeAll EventLogStorage.empty es).eventsFor r =
        (EventLogStorage.storeAll EventLogStorage.empty es).events := by
      apply List.filter_eq_self.mpr
      intro rec hrec
      have : rec.entry ∈ es := by
        rw [← hentries]
        exact List.mem_map_of_mem _ hrec
      simp [hall rec.entry this]
    rw [hfor, hentries]
  · intro c lim
    refine ⟨?_, ?_, ?_⟩
    · intro rec hrec
      exact (mem_get_logs _ _ _ _ _ _ hrec).2.1
    · exact List.Pairwise.sublist (get_logs_sublist _ r c none lim) hpair
    · intro k hk
      subst hk
      exact length_get_logs_le _ r c none k

/-- Three concrete events of run "R1". -/
def exEntries : List EventLogEntry :=
  [{ runId := "R1", eventType := "STEP_START" },
   { runId := "R1", eventType := "STEP_OUTPUT" },
   { runId := "R1", eventType := "STEP_SUCCESS" }]

/-- Claim C3 witness: storing three events of run "R1" returns the cursors
1, 2, 3 in order, and reading from cursor 0 returns exactly those events in
storage order. -/
theorem store_event_cursors_and_read_witness :
    (EventLogStorage.storeCursors EventLogStorage.empty exEntries).1 = [1, 2, 3] ∧
    ((EventLogStorage.storeAll EventLogStorage.empty exEntries).get_logs_for_run "R1" 0 none none).map
      (fun rec => rec.entry) = exEntries := by
  have h := store_event_cursors_and_read exEntries "R1" (by decide)
  exact ⟨h.1.trans (by decide), h.2.2.2.1⟩

/-- Storing events never touches the watcher registry. -/
lemma storeAll_watchers : ∀ (es : List EventLogEntry) (st : EventLogStorage),
    (EventLogStorage.storeAll st es).watchers = st.watchers := by
  intro es
  induction es with
  | nil => intro st; rfl
  | cons e es ih =>
    intro st
    rw [EventLogStorage.storeAll, ih]
    rfl

/-- Stores with the same event list have the same per-run slices. -/
lemma eventsFor_congr (st st' : EventLogStorage) (h : st.events = st'.events) (run : String) :
    st.eventsFor run = st'.eventsFor run := by
  unfold EventLogStorage.eventsFor
  rw [h]

/-- One poll step of a registered subscriber delivers the pending records and
advances only that subscriber's cursor. -/
lemma pollWatcher_found (st : EventLogStorage) (run : String) (hdl : Nat) (w : Watcher)
    (h : st.watchers.find? (fun w => decide (w.runId = run) && decide (w.handler = hdl)) =
      some w) :
    st.pollWatcher run hdl =
      (st.get_logs_for_run run w.cursor none none,
       { st with watchers := st.watchers.map (fun w2 =>
          if w2.runId = run ∧ w2.handler = hdl then
            { w2 with cursor := advanceCursor (st.get_logs_for_run run w.cursor none none) w.cursor }
          else w2) }) := by
  unfold EventLogStorage.pollWatcher
  simp only [h]

/-- One poll step of an unregistered subscriber delivers nothing and changes nothing. -/
lemma pollWatcher_not_found (st : EventLogStorage) (run : String) (hdl : Nat)
    (h : st.watchers.find? (fun w => decide (w.runId = run) && decide (w.handler = hdl)) =
      none) :
    st.pollWatcher run hdl = ([], st) := by
  unfold EventLogStorage.pollWatcher
  simp only [h]

/-- In a strictly increasing record list, the last element bounds every member. -/
lemma le_getLast_seq : ∀ (l : List EventLogRecord),
    l.Pairwise (fun a b => a.seq < b.seq) → ∀ x ∈ l,
      ∃ y, l.getLast? = some y ∧ y ∈ l ∧ x.seq ≤ y.seq := by
  intro l
  induction l with
  | nil => intro _ x hx; cases hx
  | cons a t ih =>
    intro hp x hx
    cases t with
    | nil =>
      rcases List.mem_cons.mp hx with rfl | hx2
      · exact ⟨x, rfl, List.mem_cons_self x [], Nat.le_refl _⟩
      · cases hx2
    | cons b t2 =>
      have hp2 : (b :: t2).Pairwise (fun a b => a.seq < b.seq) := hp.of_cons
      obtain ⟨y, hy, hymem, _⟩ := ih hp2 b (List.mem_cons_self b t2)
      have hylast : (a :: b :: t2).getLast? = some y := by
        rw [List.getLast?_cons_cons]
        exact hy
      rcases List.mem_cons.mp hx with rfl | hx2
      · have hlt := List.rel_of_pairwise_cons hp hymem
        exact ⟨y, hylast, List.mem_cons_of_mem _ hymem, Nat.le_of_lt hlt⟩
      · obtain ⟨y2, hy2, _, hle2⟩ := ih hp2 x hx2
        have hyy : y2 = y := by
          rw [hy] at hy2
          exact (Option.some.inj hy2).symm
        exact ⟨y, hylast, List.mem_cons_of_mem _ hymem, hyy ▸ hle2⟩

/-- The advanced cursor is at least every delivered sequence number. -/
lemma le_advanceCursor (l : List EventLogRecord) (c : Nat)
    (hp : l.Pairwise (fun a b => a.seq < b.seq)) :
    ∀ x ∈ l, x.seq ≤ advanceCursor l c := by
  intro x hx
  obtain ⟨y, hy, _, hle⟩ := le_getLast_seq l hp x hx
  unfold advanceCursor
  rw [hy]
  simpa using hle

/-- Claim C7: a subscriber registered via `watch(run, cursor, callback)` is
delivered records in strictly increasing sequence-number order, all above its
cursor; with cursor 0 it is delivered exactly the run's stored events; a later
poll after more events delivers only strictly later sequence numbers (no
duplicate for the (run, cursor) pair); and once `end_watch` deregisters the
handler, events stored afterwards trigger no further delivery. -/
theorem watcher_delivery_ordered (es1 es2 : List EventLogEntry) (r : String) (c hdl : Nat)
    (st1 st2 : EventLogStorage) (d1 : List EventLogRecord)
    (h1 : st1 = (EventLogStorage.storeAll EventLogStorage.empty es1).watch r c hdl)
    (h2 : d1 = (st1.pollWatcher r hdl).1)
    (h3 : st2 = (st1.pollWatcher r hdl).2) :
    d1.Pairwise (fun a b => a.seq < b.seq) ∧
    (∀ x ∈ d1, c < x.seq) ∧
    (c = 0 → d1 = (EventLogStorage.storeAll EventLogStorage.empty es1).eventsFor r) ∧
    ((EventLogStorage.storeAll st2 es2).pollWatcher r hdl).1.Pairwise
      (fun a b => a.seq < b.seq) ∧
    (∀ x ∈ d1, ∀ y ∈ ((EventLogStorage.storeAll st2 es2).pollWatcher r hdl).1,
      x.seq < y.seq) ∧
    ((EventLogStorage.storeAll (st2.end_watch r hdl) es2).pollWatcher r hdl).1 = [] := by
  have hw0 : (EventLogStorage.storeAll EventLogStorage.empty es1).watchers = [] := by
    rw [storeAll_watchers]
    rfl
  have hw1 : st1.watchers = [{ runId := r, handler := hdl, cursor := c }] := by
    rw [h1]
    show (EventLogStorage.storeAll EventLogStorage.empty es1).watchers ++ _ = _
    rw [hw0]
    rfl
  have hev1 : st1.events = (EventLogStorage.storeAll EventLogStorage.empty es1).events := by
    rw [h1]
    rfl
  have hfind1 : st1.watchers.find?
      (fun w => decide (w.runId = r) && decide (w.handler = hdl)) =
      some { runId := r, handler := hdl, cursor := c } := by
    rw [hw1]
    simp
  have hpoll1 := pollWatcher_found st1 r hdl _ hfind1
  have hd1 : d1 = st1.get_logs_for_run r c none none := by
    rw [h2, hpoll1]
  have hseq0 : ((EventLogStorage.storeAll EventLogStorage.empty es1).eventsFor r).map
      (fun rec => rec.seq) =
      List.range' 1 (es1.filter (fun e => decide (e.runId = r))).length := by
    simpa [EventLogStorage.eventsFor, EventLogStorage.empty] using
      eventsFor_storeAll_seqs r es1 EventLogStorage.empty
  have hefor1 : st1.eventsFor r =
      (EventLogStorage.storeAll EventLogStorage.empty es1).eventsFor r :=
    eventsFor_congr _ _ hev1 r
  have hseq1 : (st1.eventsFor r).map (fun rec => rec.seq) =
      List.range' 1 (es1.filter (fun e => decide (e.runId = r))).length := by
    rw [hefor1]
    exact hseq0
  have hpair1 := pairwise_seq_of_map_range' _ _ _ hseq1
  have hpos1 := seq_pos_of_map_range1 _ _ hseq1
  have hd1pair : d1.Pairwise (fun a b => a.seq < b.seq) := by
    rw [hd1]
    exact List.Pairwise.sublist (get_logs_sublist st1 r c none none) hpair1
  have hd1gt : ∀ x ∈ d1, c < x.seq := by
    intro x hx
    rw [hd1] at hx
    exact (mem_get_logs _ _ _ _ _ _ hx).2.1
  have hw2 : st2.watchers =
      [{ runId := r, handler := hdl, cursor := advanceCursor d1 c }] := by
    rw [h3, hpoll1]
    show st1.watchers.map _ = _
    rw [hw1, hd1]
    simp
  have hev2 : st2.events = st1.events := by
    rw [h3, hpoll1]
  have hfind3 : (EventLogStorage.storeAll st2 es2).watchers.find?
      (fun w => decide (w.runId = r) && decide (w.handler = hdl)) =
      some { runId := r, handler := hdl, cursor := advanceCursor d1 c } := by
    rw [storeAll_watchers, hw2]
    simp
  have hpoll3 := pollWatcher_found (EventLogStorage.storeAll st2 es2) r hdl _ hfind3
  have hd2 : ((EventLogStorage.storeAll st2 es2).pollWatcher r hdl).1 =
      (EventLogStorage.storeAll st2 es2).get_logs_for_run r (advanceCursor d1 c) none none := by
    rw [hpoll3]
  have hefor2 : st2.eventsFor r = st1.eventsFor r := eventsFor_congr _ _ hev2 r
  have hlen1 : (st1.eventsFor r).length =
      (es1.filter (fun e => decide (e.runId = r))).length := by
    have := congrArg List.length hseq1
    simpa using this
  have hseq3 : ((EventLogStorage.storeAll st2 es2).eventsFor r).map (fun rec => rec.seq) =
      List.range' 1 ((es1.filter (fun e => decide (e.runId = r))).length +
        (es2.filter (fun e => decide (e.runId = r))).length) := by
    have h := eventsFor_storeAll_seqs r es2 st2
    rw [hefor2, hseq1, hlen1] at h
    rw [h]
    have happ := List.range'_append 1 (es1.filter (fun e => decide (e.runId = r))).length
      (es2.filter (fun e => decide (e.runId = r))).length 1
    simpa [Nat.add_comm] using happ
  have hpair3 := pairwise_seq_of_map_range' _ _ _ hseq3
  have hd2pair : ((EventLogStorage.storeAll st2 es2).pollWatcher r hdl).1.Pairwise
      (fun a b => a.seq < b.seq) := by
    rw [hd2]
    exact List.Pairwise.sublist (get_logs_sublist _ r _ none none) hpair3
  have hcross : ∀ x ∈ d1, ∀ y ∈ ((EventLogStorage.storeAll st2 es2).pollWatcher r hdl).1,
      x.seq < y.seq := by
    intro x hx y hy
    have hxle : x.seq ≤ advanceCursor d1 c := le_advanceCursor d1 c hd1pair x hx
    rw [hd2] at hy
    have hygt := (mem_get_logs _ _ _ _ _ _ hy).2.1
    omega
  have hzero : c = 0 → d1 = (EventLogStorage.storeAll EventLogStorage.empty es1).eventsFor r := by
    intro hc
    subst hc
    rw [hd1]
    have hall0 : st1.get_logs_for_run r 0 none none = st1.eventsFor r := by
      show (st1.eventsFor r).filter
        (fun rec => decide (0 < rec.seq) && typeMatches none rec) = _
      apply List.filter_eq_self.mpr
      intro rec hrec
      have := hpos1 rec hrec
      simp [typeMatches]
      omega
    rw [hall0, hefor1]
  have hw2e : (st2.end_watch r hdl).watchers = [] := by
    show st2.watchers.filter _ = []
    rw [hw2]
    simp
  have hfind5 : (EventLogStorage.storeAll (st2.end_watch r hdl) es2).watchers.find?
      (fun w => decide (w.runId = r) && decide (w.handler = hdl)) = none := by
    rw [storeAll_watchers, hw2e]
    rfl
  have hend := pollWatcher_not_found _ r hdl hfind5
  exact ⟨hd1pair, hd1gt, hzero, hd2pair, hcross, by rw [hend]⟩

/-- Claim C7 witness: with run "R1", events 1, 2, 3 stored, a watcher at cursor
0 is delivered exactly sequence numbers 1, 2, 3 in order; after `end_watch`, a
fourth stored event triggers no delivery. -/
theorem watcher_delivery_ordered_witness :
    ((((EventLogStorage.storeAll EventLogStorage.empty exEntries).watch "R1" 0 0).pollWatcher
        "R1" 0).1).map (fun rec => rec.seq) = [1, 2, 3] ∧
    ((EventLogStorage.storeAll
        (((((EventLogStorage.storeAll EventLogStorage.empty exEntries).watch "R1" 0
          0).pollWatcher "R1" 0).2).end_watch "R1" 0)
        [{ runId := "R1", eventType := "STEP_FAILURE" }]).pollWatcher "R1" 0).1 = [] := by
  have h := watcher_delivery_ordered exEntries [{ runId := "R1", eventType := "STEP_FAILURE" }]
    "R1" 0 0 _ _ _ rfl rfl rfl
  constructor
  · rw [h.2.2.1 rfl]
    rfl
  · exact h.2.2.2.2.2

end Dagster
